import Mathlib

/-!
# github-proxy: a shallow embedding of the core request-handling logic

This file embeds, in Lean, the pure computational core of the github-proxy
server (a transforming reverse proxy for GitHub): the blacklist filter
(`src/blacklist.js`), the response cache (`src/cache.js`), the retrying
upstream client (`src/axiosClient.js`) and the content rewriter / cache-key
construction of `src/proxy.js`.  JavaScript strings are modelled as Lean
`String`s (lowercasing is ASCII `Char.toLower`, which agrees with
`String.prototype.toLowerCase` on the ASCII repository paths and hosts the
program manipulates), JS `Map`s and plain objects as association lists,
`Date.now()` as an explicit `now : Nat` argument, and fallible I/O results as
`Option`/`Except` values passed in explicitly.  Ambient effectful facilities
(`Math.random`, `Date.now`) are modelled by an explicit `Env` value so that
independence from them is expressible.

Theorems at the end of the file settle the specification claims about this
code.
-/

namespace GithubProxy

/-! ## String utilities

JS regular-expression and string operations used by the source, implemented
on `List Char` so that everything reduces by kernel computation. -/

/-- `listHasPrefixL p s`: the list `s` starts with `p` (JS `startsWith` /
an anchored regex literal). -/
def listHasPrefixL : List Char → List Char → Bool
  | [], _ => true
  | _ :: _, [] => false
  | a :: as, b :: bs => a == b && listHasPrefixL as bs

/-- `String.startsWith` as the source uses it. -/
def strStartsWith (s p : String) : Bool :=
  listHasPrefixL p.data s.data

/-- `hasSubL s pat`: `pat` occurs as a contiguous sublist of `s`
(JS `String.prototype.includes` / an unanchored regex literal). -/
def hasSubL : List Char → List Char → Bool
  | [], pat => pat.isEmpty
  | s@(_ :: rest), pat => listHasPrefixL pat s || hasSubL rest pat

/-- JS `url.includes(pat)` / `url.match(/pat/) !== null` for a literal
pattern. -/
def containsSub (s pat : String) : Bool :=
  hasSubL s.data pat.data

/-- One JS regex `/https?:\/\/host/` test: the URL contains
`https://host` or `http://host`. -/
def matchesScheme (url host : String) : Bool :=
  containsSub url ("https://" ++ host) || containsSub url ("http://" ++ host)

/-- ASCII lowercasing, modelling `String.prototype.toLowerCase()` on the
ASCII data this program handles. -/
def lowerStr (s : String) : String :=
  ⟨s.data.map Char.toLower⟩

/-- Global replacement of the regex `/https?:\/\/host/g` by `repl`
(`String.prototype.replace` with the `g` flag): scan left to right; at a
match (the greedy `s?` prefers `https`), emit `repl` and skip the matched
text; otherwise emit the character and move on.  `skip` counts characters
of a previous match still to be consumed. -/
def replaceSchemeGo (host repl : List Char) (skip : Nat) : List Char → List Char
  | [] => []
  | c :: rest =>
    match skip with
    | n + 1 => replaceSchemeGo host repl n rest
    | 0 =>
      if listHasPrefixL ("https://".data ++ host) (c :: rest) then
        repl ++ replaceSchemeGo host repl (7 + host.length) rest
      else if listHasPrefixL ("http://".data ++ host) (c :: rest) then
        repl ++ replaceSchemeGo host repl (6 + host.length) rest
      else
        c :: replaceSchemeGo host repl 0 rest

/-- `url.replace(/https?:\/\/host/g, repl)`. -/
def replaceScheme (host repl url : String) : String :=
  ⟨replaceSchemeGo host.data repl.data 0 url.data⟩

/-- The JS regex class `[^.]+\.githubusercontent\.com` preceded by
`https?://`, tested anywhere in the URL: after a scheme, a nonempty run of
non-dot characters followed by `.githubusercontent.com`.  The greedy
`[^.]+` is equivalent to taking the maximal non-dot run (shrinking it
cannot make the literal `.` match). -/
def nonDotRunThen (tail : List Char) : List Char → Bool
  | [] => false
  | c :: rest =>
    if c == '.' then false
    else listHasPrefixL tail rest || nonDotRunThen tail rest

def subdomainMatchAt (s : List Char) : Bool :=
  (listHasPrefixL "https://".data s && nonDotRunThen ".githubusercontent.com".data (s.drop 8)) ||
  (listHasPrefixL "http://".data s && nonDotRunThen ".githubusercontent.com".data (s.drop 7))

def hasSubdomainGhUserContent : List Char → Bool
  | [] => false
  | s@(_ :: rest) => subdomainMatchAt s || hasSubdomainGhUserContent rest

/-! ## Association lists

JS `Map`s and plain header objects, as association lists with unique keys:
`get`/`has` find the entry, `set` updates in place or appends, `delete`
removes the entry. -/

def assocGet {β : Type} : List (String × β) → String → Option β
  | [], _ => none
  | (k', v) :: rest, k => if k' == k then some v else assocGet rest k

def assocSet {β : Type} : List (String × β) → String → β → List (String × β)
  | [], k, v => [(k, v)]
  | (k', v') :: rest, k, v =>
    if k' == k then (k, v) :: rest else (k', v') :: assocSet rest k v

def assocDelete {β : Type} : List (String × β) → String → List (String × β)
  | [], _ => []
  | (k', v') :: rest, k => if k' == k then rest else (k', v') :: assocDelete rest k

/-- JS `urlPath.split('/')` (split on every occurrence of the separator,
keeping empty pieces). -/
def splitSlash : List Char → List (List Char)
  | [] => [[]]
  | c :: rest =>
    if c == '/' then [] :: splitSlash rest
    else
      match splitSlash rest with
      | piece :: pieces => (c :: piece) :: pieces
      | [] => [[c]]

end GithubProxy

namespace GithubProxy

/-! ## Blacklist filter (`src/blacklist.js`) -/

/-- The `errorResponse` object of the blacklist configuration file. -/
structure ErrorResponse where
  statusCode : Nat
  message : String
deriving DecidableEq

/-- The JSON blacklist configuration
`{enabled, repositories[], keywords[], whitelistRepositories[], logBlocked, errorResponse}`. -/
structure BlacklistConfig where
  enabled : Bool
  repositories : List String
  keywords : List String
  whitelistRepositories : List String
  logBlocked : Bool
  errorResponse : ErrorResponse
deriving DecidableEq

/-- The hardcoded safe default (`defaultConfig` in `src/blacklist.js`). -/
def defaultConfig : BlacklistConfig :=
  { enabled := false
    repositories := []
    keywords := []
    whitelistRepositories := []
    logBlocked := true
    errorResponse := { statusCode := 451, message := "根据相关法律法规，该内容不予显示" } }

/-- The memoized verdict cache `checkedPathsCache` (a JS `Map` from repo
path to boolean verdict). -/
abbrev VerdictCache : Type := List (String × Bool)

/-- The module-level mutable state of `src/blacklist.js`:
`blacklistConfig`, `checkedPathsCache` and `configLastModified`. -/
structure BlacklistState where
  blacklistConfig : BlacklistConfig
  checkedPathsCache : VerdictCache
  configLastModified : Nat

/-- `reloadConfig`.  The outcome of reading and parsing the configuration
file is passed in as `readResult`: `some (cfg, mtime)` when
`fs.readFileSync` + `JSON.parse` succeed (with the file's `mtimeMs`),
`none` when any step throws.  On success the parsed config is installed,
the verdict cache is cleared and the modification time recorded, returning
`true`; on failure the `catch` branch installs `{...defaultConfig}`
(leaving cache and mtime untouched) and returns `false`. -/
def reloadConfig (readResult : Option (BlacklistConfig × Nat)) (st : BlacklistState) :
    BlacklistState × Bool :=
  match readResult with
  | some (cfg, mtime) =>
    ({ blacklistConfig := cfg, checkedPathsCache := [], configLastModified := mtime }, true)
  | none =>
    ({ st with blacklistConfig := defaultConfig }, false)

/-- `extractRepoPath(urlPath)`: skip the service prefixes, split on `/`,
drop empty segments, and return the lowercased `owner/repo` from the first
two segments (the `checkConfigUpdated()` call at its head is file polling
I/O and does not affect the returned value). -/
def extractRepoPath (urlPath : String) : Option String :=
  if strStartsWith urlPath "/api/" || strStartsWith urlPath "/raw/" ||
     strStartsWith urlPath "/assets/" || strStartsWith urlPath "/releases/" ||
     strStartsWith urlPath "/codeload/" || strStartsWith urlPath "/admin/" then
    none
  else
    match (splitSlash urlPath.data).filter (fun p => p.length > 0) with
    | p0 :: p1 :: _ => some (lowerStr (⟨p0⟩ ++ "/" ++ ⟨p1⟩))
    | _ => none

/-- `isRepoBlacklisted(repoPath)`: `false` for an empty path or a disabled
policy; otherwise consult the verdict cache, then the whitelist
(lowercased, short-circuit allow), then the exact repository blacklist,
then keyword substring matching, memoizing the verdict.  Returns the
verdict together with the updated cache. -/
def isRepoBlacklisted (cfg : BlacklistConfig) (cache : VerdictCache) (repoPath : String) :
    Bool × VerdictCache :=
  if repoPath == "" || !cfg.enabled then (false, cache)
  else
    match assocGet cache repoPath with
    | some v => (v, cache)
    | none =>
      let lowerRepoPath := lowerStr repoPath
      if cfg.whitelistRepositories.any (fun r => lowerStr r == lowerRepoPath) then
        (false, assocSet cache repoPath false)
      else if cfg.repositories.any (fun r => lowerStr r == lowerRepoPath) then
        (true, assocSet cache repoPath true)
      else
        let isBlocked := cfg.keywords.any (fun keyword => containsSub lowerRepoPath (lowerStr keyword))
        (isBlocked, assocSet cache repoPath isBlocked)

/-- `shouldBlockPath(urlPath)`: nothing is blocked while the policy is
disabled; otherwise extract the repo path and check the blacklist. -/
def shouldBlockPath (cfg : BlacklistConfig) (cache : VerdictCache) (urlPath : String) :
    Bool × VerdictCache :=
  if !cfg.enabled then (false, cache)
  else
    match extractRepoPath urlPath with
    | none => (false, cache)
    | some repoPath => isRepoBlacklisted cfg cache repoPath

end GithubProxy

namespace GithubProxy

/-! ## Response cache (`src/cache.js`, `CacheManager`)

`config.cache.enabled` is passed in as `enabled`, `Date.now()` as `now`.
The hit/miss statistics, the size estimate and the emitted events do not
affect the store or the returned data and are not modelled; the periodic
`cleanup()` sweep is a separate entry point. -/

/-- A value handed to the cache.  `streamLike` models the guard
`data instanceof EventEmitter || (typeof data === 'object' && data !== null && (data.pipe || data.on))`:
a stream-like object that `set` refuses to cache. -/
structure CacheData where
  payload : String
  streamLike : Bool
deriving DecidableEq

/-- One stored entry `{data, timestamp, maxAge}`. -/
structure CacheItem where
  data : CacheData
  timestamp : Nat
  maxAge : Nat
deriving DecidableEq

abbrev CacheMap : Type := List (String × CacheItem)

/-- `config.cache.maxAge` (1 hour, in milliseconds). -/
def cacheConfigMaxAge : Nat := 60 * 60 * 1000

/-- `config.cache.staticMaxAge` (24 hours, in milliseconds). -/
def cacheConfigStaticMaxAge : Nat := 24 * 60 * 60 * 1000

namespace CacheManager

/-- `CacheManager.get(key)`: `null` when caching is disabled or the key is
absent; an entry older than its `maxAge` is deleted at the read and counts
as a miss.  Returns the value (`none` = miss) and the updated store. -/
def get (enabled : Bool) (store : CacheMap) (now : Nat) (key : String) :
    Option CacheData × CacheMap :=
  if !enabled then (none, store)
  else
    match assocGet store key with
    | none => (none, store)
    | some item =>
      if now - item.timestamp > item.maxAge then (none, assocDelete store key)
      else (some item.data, store)

/-- `CacheManager.set(key, data, maxAge)`: a no-op when caching is disabled
or the data is stream-like; otherwise store
`{data, timestamp: Date.now(), maxAge: maxAge || config.cache.maxAge}`
(a `maxAge` of `0` is falsy in JS and falls back to the configured
default). -/
def set (enabled : Bool) (store : CacheMap) (now : Nat) (key : String)
    (data : CacheData) (maxAge : Nat) : CacheMap :=
  if !enabled then store
  else if data.streamLike then store
  else assocSet store key { data := data, timestamp := now,
                            maxAge := if maxAge == 0 then cacheConfigMaxAge else maxAge }

/-- `CacheManager.cleanup()`: delete every entry older than its `maxAge`. -/
def cleanup (store : CacheMap) (now : Nat) : CacheMap :=
  store.filter (fun kv => !(now - kv.2.timestamp > kv.2.maxAge))

end CacheManager

/-- `getOrSetCache(cacheKey, maxAge, fetchCallback)` from `src/proxy.js`:
return a cache hit directly; on a miss run the fetch, and only a fulfilled
fetch stores its data before being returned — a rejected fetch is passed
through with the store exactly as the initial read left it.  The settled
outcome of `fetchCallback()` is passed in as `fetch`. -/
def getOrSetCache (enabled : Bool) (store : CacheMap) (now : Nat) (key : String)
    (maxAge : Nat) (fetch : Except String CacheData) :
    Except String CacheData × CacheMap :=
  match CacheManager.get enabled store now key with
  | (some cached, store') => (Except.ok cached, store')
  | (none, store') =>
    match fetch with
    | Except.ok data => (Except.ok data, CacheManager.set enabled store' now key data maxAge)
    | Except.error e => (Except.error e, store')

end GithubProxy

namespace GithubProxy

/-! ## Upstream client (`src/axiosClient.js`)

The response interceptor's retry logic of `createAxiosClient`.  An axios
error is modelled by its `code` and, when a response was received, its
status; the request config by the fields the interceptor consults
(`method` is part of every axios config — the interceptor never reads
it). -/

/-- The fields of an axios error the retry logic reads: `error.code` and
`error.response && error.response.status`. -/
structure AxiosError where
  code : Option String
  responseStatus : Option Nat
deriving DecidableEq

/-- The fields of an axios request config relevant to the interceptor:
the HTTP `method`, the profile's `retry` budget and the mutable
`currentRetryCount` (initially `0`, standing for JS `undefined`, for which
`undefined >= retry` is also false). -/
structure RequestConfig where
  method : String
  retry : Nat
  currentRetryCount : Nat
deriving DecidableEq

/-- `isNetworkError`: `ECONNABORTED`/`ECONNRESET`/`ETIMEDOUT`, or no
response received at all. -/
def isNetworkError (e : AxiosError) : Bool :=
  e.code == some "ECONNABORTED" || e.code == some "ECONNRESET" ||
  e.code == some "ETIMEDOUT" || e.responseStatus == none

/-- `shouldRetry`: a network error, or a received response with a 5xx
status. -/
def shouldRetryError (e : AxiosError) : Bool :=
  isNetworkError e ||
  (match e.responseStatus with
   | some status => decide (status ≥ 500)
   | none => false)

/-- Whether the response interceptor re-issues the failed call: first the
budget guard `!config.retry || config.currentRetryCount >= config.retry`
rejects, then `shouldRetry` decides.  The config's `method` is never
consulted. -/
def willRetry (cfg : RequestConfig) (e : AxiosError) : Bool :=
  if cfg.retry == 0 || cfg.currentRetryCount ≥ cfg.retry then false
  else shouldRetryError e

/-- The backoff delay taken before re-issuing the call once
`currentRetryCount` has been incremented to `c`:
`config.retryDelay * Math.pow(2, c - 1)`. -/
def retryDelayFor (retryDelay c : Nat) : Nat :=
  retryDelay * 2 ^ (c - 1)

/-- A whole run of the interceptor's retry loop against an upstream whose
attempt number `n` fails with `err n` (attempts are numbered by the
`currentRetryCount` in force when they fail; the first attempt fails with
`err 0`).  Returns the total number of attempts issued and the list of
backoff delays taken, in order. -/
def retryRun (retry retryDelay : Nat) (err : Nat → AxiosError) (count : Nat) :
    Nat × List Nat :=
  if retry == 0 || count ≥ retry then (1, [])
  else if !shouldRetryError (err count) then (1, [])
  else
    let c := count + 1
    let rec_result := retryRun retry retryDelay err c
    (rec_result.1 + 1, retryDelayFor retryDelay c :: rec_result.2)
termination_by retry - count
decreasing_by
  simp only [Bool.or_eq_true, beq_iff_eq, decide_eq_true_eq, not_or] at *
  omega

end GithubProxy

namespace GithubProxy

/-! ## Content rewriter and route keys (`src/proxy.js`)

The ambient effectful facilities the JS runtime offers (`Math.random`,
`Date.now`) are modelled by an `Env` value handed to every embedded
function of this module, so that (in)dependence on them is a statement
rather than an artifact of the embedding. -/

/-- The ambient environment: `Math.random()` (as a pool index) and
`Date.now()`. -/
structure Env where
  randIndex : Nat
  now : Nat

/-- The `USER_AGENTS` pool. -/
def USER_AGENTS : List String :=
  [ "Mozilla/5.0 (Windows NT 10.0; Win64; x64) AppleWebKit/537.36 (KHTML, like Gecko) Chrome/106.0.0.0 Safari/537.36 GithubProxy/1.0"
  , "Mozilla/5.0 (Macintosh; Intel Mac OS X 10_15_7) AppleWebKit/537.36 (KHTML, like Gecko) Chrome/106.0.0.0 Safari/537.36 GithubProxy/1.0"
  , "Mozilla/5.0 (X11; Linux x86_64) AppleWebKit/537.36 (KHTML, like Gecko) Chrome/106.0.0.0 Safari/537.36 GithubProxy/1.0"
  , "Mozilla/5.0 (Windows NT 10.0; Win64; x64) AppleWebKit/537.36 (KHTML, like Gecko) Edge/106.0.1370.47 Safari/537.36 GithubProxy/1.0"
  , "Mozilla/5.0 (Windows NT 10.0; Win64; x64; rv:106.0) Gecko/20100101 Firefox/106.0 GithubProxy/1.0" ]

/-- `getRandomUserAgent()`: `USER_AGENTS[Math.floor(Math.random() * USER_AGENTS.length)]`. -/
def getRandomUserAgent (env : Env) : String :=
  USER_AGENTS.getD (env.randIndex % USER_AGENTS.length) ""

/-- A header bag (a plain JS object used as a string map). -/
abbrev Headers : Type := List (String × String)

/-- JS truthiness of `result[key]`: absent or the empty string is falsy. -/
def headerFalsy (m : Headers) (key : String) : Bool :=
  match assocGet m key with
  | none => true
  | some v => v == ""

/-- `addRequiredHeaders(headers, targetHost)`: inject a random
`User-Agent` when the client supplied none, force the `host` header to the
upstream host, and default `Accept` / `Accept-Encoding`. -/
def addRequiredHeaders (env : Env) (headers : Headers) (targetHost : Option String) : Headers :=
  let result := headers
  let result :=
    if headerFalsy result "user-agent" && headerFalsy result "User-Agent" then
      assocSet result "User-Agent" (getRandomUserAgent env)
    else result
  let result :=
    match targetHost with
    | some h => assocSet result "host" h
    | none => result
  let result :=
    if headerFalsy result "accept" && headerFalsy result "Accept" then
      assocSet result "Accept" "text/html,application/xhtml+xml,application/xml;q=0.9,image/avif,image/webp,*/*;q=0.8"
    else result
  if headerFalsy result "accept-encoding" && headerFalsy result "Accept-Encoding" then
    assocSet result "Accept-Encoding" "gzip, deflate, br"
  else result

/-- `processResourceUrl(url)` from `transformHtmlContent`: route an
absolute resource URL to the corresponding proxy path, tested in source
order (relative path, CDN, static assets, raw content, API, main site,
other `*.githubusercontent.com` subdomains, any other absolute URL). -/
def processResourceUrl (url : String) : String :=
  if strStartsWith url "/" && !strStartsWith url "//" then url
  else if matchesScheme url "cdn." then "/fragment/" ++ url
  else if matchesScheme url "github.githubassets.com" then
    replaceScheme "github.githubassets.com" "/assets" url
  else if matchesScheme url "raw.githubusercontent.com" then
    replaceScheme "raw.githubusercontent.com" "/raw" url
  else if matchesScheme url "api.github.com" then
    replaceScheme "api.github.com" "/api" url
  else if matchesScheme url "github.com" then
    replaceScheme "github.com" "" url
  else if hasSubdomainGhUserContent url.data then "/fragment/" ++ url
  else if strStartsWith url "http://" || strStartsWith url "https://" then "/fragment/" ++ url
  else url

/-- The `//`-prefix normalization every replacement callback applies before
`processResourceUrl`. -/
def transformAttrUrl (url : String) : String :=
  processResourceUrl (if strStartsWith url "//" then "https:" ++ url else url)

/-! ### Regex scanners

Each `String.prototype.replace` with a regex is a left-to-right scan:
at each position a matcher either produces the replacement text and the
rest of the input after the match, or the scan moves on one character.
The scanners take the input length as fuel (every match consumes at least
one character, so the fuel never runs out on a real scan). -/

/-- Maximal run of characters outside `stop` and the remainder
(the greedy `[^…]*`: shrinking the run cannot help the pattern continue,
so no backtracking into it is needed when the next literal is a stop
character). -/
def spanNotIn (stop : List Char) : List Char → List Char × List Char
  | [] => ([], [])
  | c :: rest =>
    if stop.contains c then ([], c :: rest)
    else
      let (run, rest') := spanNotIn stop rest
      (c :: run, rest')

/-- Backtracking over the split point of a greedy `[^…]*` before a
required literal: try the longest candidate first, as the JS engine
does. -/
def tryDescend {α : Type} (f : Nat → Option α) : Nat → Option α
  | 0 => f 0
  | k + 1 =>
    match f (k + 1) with
    | some a => some a
    | none => tryDescend f k

/-- `replace` without the `g` flag: rewrite the first match only. -/
def replaceFirstWith (tryM : List Char → Option (List Char × List Char)) :
    Nat → List Char → List Char
  | 0, s => s
  | _ + 1, [] => []
  | fuel + 1, c :: rest =>
    match tryM (c :: rest) with
    | some (out, rest') => out ++ rest'
    | none => c :: replaceFirstWith tryM fuel rest

/-- `replace` with the `g` flag: rewrite every match, resuming after each
match's end. -/
def replaceAllWith (tryM : List Char → Option (List Char × List Char)) :
    Nat → List Char → List Char
  | 0, s => s
  | _ + 1, [] => []
  | fuel + 1, c :: rest =>
    match tryM (c :: rest) with
    | some (out, rest') => out ++ replaceAllWith tryM fuel rest'
    | none => c :: replaceAllWith tryM fuel rest

/-- `String.prototype.match` (no `g` flag): the text of the first match,
given a matcher returning the match length. -/
def findFirstWith (tryM : List Char → Option Nat) : Nat → List Char → Option (List Char)
  | 0, _ => none
  | _ + 1, [] => none
  | fuel + 1, c :: rest =>
    match tryM (c :: rest) with
    | some len => some ((c :: rest).take len)
    | none => findFirstWith tryM fuel rest

/-- `String.prototype.replace` with a plain-string pattern: replace the
first literal occurrence. -/
def replaceFirstLit (lit repl s : List Char) : List Char :=
  replaceFirstWith
    (fun t => if listHasPrefixL lit t then some (repl, t.drop lit.length) else none)
    s.length s

def isQuoteChar (c : Char) : Bool := c == '"' || c == '\''

/-- `/<body([^>]*)>/` and its replacement
`'<body$1 data-turbo-suppress-warning>'`. -/
def matchBodyTagAt (s : List Char) : Option (List Char × List Char) :=
  if listHasPrefixL "<body".data s then
    let (g1, r) := spanNotIn ['>'] (s.drop 5)
    match r with
    | '>' :: r' => some ("<body".data ++ g1 ++ " data-turbo-suppress-warning>".data, r')
    | _ => none
  else none

/-- `/<head([^>]*)>/` and the CSP `<meta>` injection template. -/
def matchHeadTagAt (s : List Char) : Option (List Char × List Char) :=
  if listHasPrefixL "<head".data s then
    let (g1, r) := spanNotIn ['>'] (s.drop 5)
    match r with
    | '>' :: r' =>
      some ("<head".data ++ g1 ++
        ">\n    <meta http-equiv=\"Content-Security-Policy\" content=\"default-src * 'self' data: blob: 'unsafe-inline' 'unsafe-eval';\">\n  ".data,
        r')
    | _ => none
  else none

/-- Tail of the turbo-script regex after `src="` :
`[^"]*turbo[^"]*"` (the greedy quoted part must contain `turbo`; its split
point does not affect what follows), then `[^>]*>`, then `</script>`.
Returns the matched length. -/
def matchTurboTail (s : List Char) : Option Nat :=
  let (runB, restB) := spanNotIn ['"'] s
  if hasSubL runB "turbo".data then
    match restB with
    | '"' :: r2 =>
      let (runC, restC) := spanNotIn ['>'] r2
      match restC with
      | '>' :: r3 =>
        if listHasPrefixL "</script>".data r3 then
          some (runB.length + 1 + runC.length + 1 + 9)
        else none
      | _ => none
    | _ => none
  else none

/-- One candidate split of the `[^>]*` between `<script` and `src="`. -/
def turboFromSrc (rest0 : List Char) (k : Nat) : Option Nat :=
  if listHasPrefixL "src=\"".data (rest0.drop k) then
    (matchTurboTail ((rest0.drop k).drop 5)).map (fun t => k + 5 + t)
  else none

/-- `/<script[^>]*src="[^"]*turbo[^"]*"[^>]*><\/script>/` at one position:
the length of the match, if any. -/
def matchTurboAt (s : List Char) : Option Nat :=
  if listHasPrefixL "<script".data s then
    let rest0 := s.drop 7
    let runA := (spanNotIn ['>'] rest0).1
    (tryDescend (turboFromSrc rest0) runA.length).map (fun n => 7 + n)
  else none

/-- A character the anchored URL regex `/^(https?:\/\/[^"'\s]+)/` stops
at (`\s` restricted to the ASCII whitespace the data contains). -/
def isUrlStopChar (c : Char) : Bool :=
  c == '"' || c == '\'' || c == ' ' || c == '\t' || c == '\n' || c == '\r'

/-- `src.match(/^(https?:\/\/[^"'\s]+)/)`: the captured URL, if any. -/
def anchoredHttpUrl (src : String) : Option String :=
  let l := src.data
  let base : Option Nat :=
    if listHasPrefixL "https://".data l then some 8
    else if listHasPrefixL "http://".data l then some 7
    else none
  match base with
  | some b =>
    let run := (l.drop b).takeWhile (fun c => !isUrlStopChar c)
    if run.isEmpty then none else some ⟨l.take b ++ run⟩
  | none => none

/-- One candidate split of the `[^>]*` between `<include-fragment` and
`src="`, matching `src="([^"]*)"([^>]*)>` after it: `(g1, g2, g3, rest)`. -/
def incFragFromSrc (rest0 : List Char) (k : Nat) :
    Option (List Char × List Char × List Char × List Char) :=
  if listHasPrefixL "src=\"".data (rest0.drop k) then
    let afterSrc := (rest0.drop k).drop 5
    let (g2, r2) := spanNotIn ['"'] afterSrc
    match r2 with
    | '"' :: r3 =>
      let (g3, r4) := spanNotIn ['>'] r3
      match r4 with
      | '>' :: r5 => some (rest0.take k, g2, g3, r5)
      | _ => none
    | _ => none
  else none

/-- `/<include-fragment([^>]*)src="([^"]*)"([^>]*)>/g` with its callback:
an absolute `http(s)` src is rewritten to `/fragment/{url}` (the anchored
URL capture), anything else is left as matched. -/
def matchIncludeFragmentAt (s : List Char) : Option (List Char × List Char) :=
  if listHasPrefixL "<include-fragment".data s then
    let rest0 := s.drop 17
    let runA := (spanNotIn ['>'] rest0).1
    match tryDescend (incFragFromSrc rest0) runA.length with
    | some (g1, g2, g3, rest') =>
      let src : String := ⟨g2⟩
      let asMatched :=
        "<include-fragment".data ++ g1 ++ "src=\"".data ++ g2 ++ "\"".data ++ g3 ++ ['>']
      let out :=
        if strStartsWith src "http" then
          match anchoredHttpUrl src with
          | some u =>
            "<include-fragment".data ++ g1 ++ "src=\"/fragment/".data ++ u.data ++
              "\"".data ++ g3 ++ ['>']
          | none => asMatched
        else asMatched
      some (out, rest')
    | none => none
  else none

/-- The value alternation of the resource-attribute regex,
`(https?:[^"']+|//[^"']+)` followed by `["']`: the captured URL, the
closing quote found (either kind) and the rest after it.  The greedy
`[^"']+` is forced: the maximal quote-free run must be followed by a
quote. -/
def matchSchemeValue (r1 : List Char) : Option (List Char × Char × List Char) :=
  let base : Option Nat :=
    if listHasPrefixL "https:".data r1 then some 6
    else if listHasPrefixL "http:".data r1 then some 5
    else if listHasPrefixL "//".data r1 then some 2
    else none
  match base with
  | some b =>
    let (run, rest) := spanNotIn ['"', '\''] (r1.drop b)
    if run.isEmpty then none
    else
      match rest with
      | q2 :: r3 => some (r1.take b ++ run, q2, r3)
      | [] => none
  | none => none

/-- `/(attr=["'])(https?:[^"']+|//[^"']+)(["'])/g` with its callback:
`$1 + processResourceUrl(url) + $3` (after the `//` normalization). -/
def matchAttrAt (attrEq : List Char) (s : List Char) : Option (List Char × List Char) :=
  if listHasPrefixL attrEq s then
    match s.drop attrEq.length with
    | q :: r1 =>
      if isQuoteChar q then
        match matchSchemeValue r1 with
        | some (g2, q2, r3) =>
          some (attrEq ++ [q] ++ (transformAttrUrl ⟨g2⟩).data ++ [q2], r3)
        | none => none
      else none
    | [] => none
  else none

/-- `/url\((['"]?)(https?:[^)]+|\/\/[^)]+)(['"]?)\)/g` with its callback.
The greedy `[^)]+` always reaches the closing parenthesis, so the trailing
`(['"]?)` capture is empty and any closing quote is part of the URL
capture, exactly as in the JS engine. -/
def matchCssUrlAt (s : List Char) : Option (List Char × List Char) :=
  if listHasPrefixL "url(".data s then
    let afterParen := s.drop 4
    let (g1, r1) :=
      match afterParen with
      | q :: r => if isQuoteChar q then ([q], r) else (([] : List Char), afterParen)
      | [] => ([], afterParen)
    let base : Option Nat :=
      if listHasPrefixL "https:".data r1 then some 6
      else if listHasPrefixL "http:".data r1 then some 5
      else if listHasPrefixL "//".data r1 then some 2
      else none
    match base with
    | some b =>
      let (run, rest) := spanNotIn [')'] (r1.drop b)
      if run.isEmpty then none
      else
        match rest with
        | ')' :: r3 =>
          some ("url(".data ++ g1 ++ (transformAttrUrl ⟨r1.take b ++ run⟩).data ++ [')'], r3)
        | _ => none
    | none => none
  else none

/-- The attributes the resource-URL pass rewrites, in source order. -/
def resourceAttrs : List String := ["src", "href", "data-url", "data-src", "content"]

/-- `transformHtmlContent(body, req)`: the HTML rewriting pipeline —
turbo-warning suppression on `<body>`, relocation of the first turbo
`<script>` to the end of `<head>`, CSP `<meta>` injection,
`<include-fragment>` src proxying, resource-attribute rewriting and inline
`url(...)` rewriting.  `host` is `req.headers.host` (declared by the
source and never used); `env` is the ambient environment, which the
source never consults here. -/
def transformHtmlContent (_env : Env) (_host : String) (body : String) : String :=
  if body == "" then body
  else
    let b0 := body.data
    let b1 := replaceFirstWith matchBodyTagAt b0.length b0
    let b2 :=
      match findFirstWith matchTurboAt b1.length b1 with
      | some script =>
        replaceFirstLit "</head>".data (script ++ "</head>".data)
          (replaceFirstLit script [] b1)
      | none => b1
    let b3 := replaceFirstWith matchHeadTagAt b2.length b2
    let b4 := replaceAllWith matchIncludeFragmentAt b3.length b3
    let b5 := resourceAttrs.foldl
      (fun acc attr => replaceAllWith (matchAttrAt (attr ++ "=").data) acc.length acc) b4
    let b6 := replaceAllWith matchCssUrlAt b5.length b5
    ⟨b6⟩

/-- `processCSPHeader(header, req)`: the original header is ignored and a
fresh policy interpolating the proxy host is produced. -/
def processCSPHeader (_header : Option String) (host : String) : String :=
  "default-src 'self' " ++ host ++
  " github.com api.github.com raw.githubusercontent.com github-cloud.s3.amazonaws.com github.githubassets.com cdn.gh.squarefield.ltd; \n    script-src 'self' 'unsafe-inline' 'unsafe-eval' " ++ host ++
  " github.githubassets.com cdn.gh.squarefield.ltd; \n    style-src 'self' 'unsafe-inline' " ++ host ++
  " github.githubassets.com cdn.gh.squarefield.ltd; \n    img-src 'self' data: blob: " ++ host ++
  " github.githubassets.com raw.githubusercontent.com github-cloud.s3.amazonaws.com github-production-repository-file-5c1aeb.s3.amazonaws.com github-production-upload-manifest-file-7fdce7.s3.amazonaws.com github-production-user-asset-6210df.s3.amazonaws.com github-production-repository-image-32fea6.s3.amazonaws.com github-production-release-asset-2e65be.s3.amazonaws.com objects.githubusercontent.com avatars.githubusercontent.com media.githubusercontent.com camo.githubusercontent.com identicons.github.com avatars.githubusercontent.com private-avatars.githubusercontent.com github-cloud.s3.amazonaws.com release-assets.githubusercontent.com cdn.gh.squarefield.ltd;\n    connect-src 'self' " ++ host ++
  " github.com api.github.com github.githubassets.com raw.githubusercontent.com *.github.com uploads.github.com collector.github.com api.github.com github-cloud.s3.amazonaws.com github-production-repository-file-5c1aeb.s3.amazonaws.com github-production-upload-manifest-file-7fdce7.s3.amazonaws.com github-production-user-asset-6210df.s3.amazonaws.com objects-origin.githubusercontent.com *.actions.githubusercontent.com productionresultssa*.blob.core.windows.net github-production-repository-image-32fea6.s3.amazonaws.com github-production-release-asset-2e65be.s3.amazonaws.com cdn.gh.squarefield.ltd;\n    font-src 'self' data: " ++ host ++
  " github.githubassets.com cdn.gh.squarefield.ltd;\n    frame-src 'self' " ++ host ++
  " github.com render.githubusercontent.com viewscreen.githubusercontent.com cdn.gh.squarefield.ltd;\n    manifest-src 'self' " ++ host ++
  ";\n    media-src 'self' " ++ host ++
  " github.githubassets.com cdn.gh.squarefield.ltd;\n    worker-src 'self' blob: " ++ host ++
  " github.com;"

/-- `processResponseHeaders(headers, req)`: strip every upstream CSP
variant, install the fresh CSP, strip `X-Frame-Options`, and add the fixed
security headers.  `host` is `req.headers.host`; `env` the ambient
environment, never consulted by the source here. -/
def processResponseHeaders (_env : Env) (host : String) (headers : Headers) : Headers :=
  let result := headers
  let result := assocDelete result "content-security-policy"
  let result := assocDelete result "Content-Security-Policy"
  let result := assocDelete result "content-security-policy-report-only"
  let result := assocDelete result "Content-Security-Policy-Report-Only"
  let result := assocSet result "Content-Security-Policy" (processCSPHeader none host)
  let result := assocDelete result "x-frame-options"
  let result := assocDelete result "X-Frame-Options"
  let result := assocSet result "X-Content-Type-Options" "nosniff"
  let result := assocSet result "X-XSS-Protection" "1; mode=block"
  let result := assocSet result "Referrer-Policy" "strict-origin-when-cross-origin"
  assocSet result "Permissions-Policy" "interest-cohort=()"

/-! ### Response-cache keys of the route handlers -/

/-- `handleApiRequest`: `` `api:${req.method}:${targetUrl}` ``. -/
def apiCacheKey (method targetUrl : String) : String :=
  "api:" ++ method ++ ":" ++ targetUrl

/-- `handleRawRequest`: `` `raw:${targetUrl}` `` — no method component. -/
def rawCacheKey (targetUrl : String) : String :=
  "raw:" ++ targetUrl

/-- `handleAssetsRequest`: `` `assets:${targetUrl}` `` — no method component. -/
def assetsCacheKey (targetUrl : String) : String :=
  "assets:" ++ targetUrl

/-- `handleGithubRequest`: `` `github:${req.method}:${targetUrl}` ``. -/
def githubCacheKey (method targetUrl : String) : String :=
  "github:" ++ method ++ ":" ++ targetUrl

/-- `handleIncludeFragmentRequest`: `` `fragment:${targetUrl}` `` — no
method component. -/
def fragmentCacheKey (targetUrl : String) : String :=
  "fragment:" ++ targetUrl

end GithubProxy


namespace GithubProxy

/-! ## Helper lemmas -/

theorem listHasPrefixL_append_self (p t : List Char) : listHasPrefixL p (p ++ t) = true := by
  induction p with
  | nil => rfl
  | cons a as ih => simp [listHasPrefixL, ih]

theorem assocGet_assocSet_self {β : Type} (m : List (String × β)) (k : String) (v : β) :
    assocGet (assocSet m k v) k = some v := by
  induction m with
  | nil => simp [assocSet, assocGet]
  | cons hd tl ih =>
    obtain ⟨k', v'⟩ := hd
    by_cases h : k' = k
    · simp [assocSet, assocGet, h]
    · simp [assocSet, assocGet, h, ih]

theorem assocGet_eq_none_of_not_mem {β : Type} (m : List (String × β)) (k : String)
    (h : k ∉ m.map Prod.fst) : assocGet m k = none := by
  induction m with
  | nil => rfl
  | cons hd tl ih =>
    obtain ⟨k', v'⟩ := hd
    simp only [List.map_cons, List.mem_cons] at h
    push_neg at h
    simp [assocGet, Ne.symm h.1, ih h.2]

theorem assocGet_assocDelete_self {β : Type} (m : List (String × β)) (k : String)
    (hnd : (m.map Prod.fst).Nodup) : assocGet (assocDelete m k) k = none := by
  induction m with
  | nil => rfl
  | cons hd tl ih =>
    obtain ⟨k', v'⟩ := hd
    simp only [List.map_cons, List.nodup_cons] at hnd
    by_cases h : k' = k
    · subst h
      simpa [assocDelete] using assocGet_eq_none_of_not_mem tl k' hnd.1
    · simp [assocDelete, assocGet, h, ih hnd.2]

end GithubProxy

namespace GithubProxy

/-! ## Claim theorems -/

/-- **C1.** For every repository path that appears, case-insensitively, in
the policy's `repositories` list and not (case-insensitively) in
`whitelistRepositories`, `isRepoBlacklisted` returns `true`; and for every
repository path that appears in `whitelistRepositories`, it returns
`false`, even when the path also matches an entry of `repositories` or a
keyword.  Stated for a path without a memoized verdict (the verdict cache
is cleared on every policy load). -/
theorem C1_isRepoBlacklisted_lists (cfg : BlacklistConfig) (cache : VerdictCache)
    (repoPath : String) (hmiss : assocGet cache repoPath = none) :
    (cfg.enabled = true → repoPath ≠ "" →
      (∃ r ∈ cfg.repositories, lowerStr r = lowerStr repoPath) →
      (∀ w ∈ cfg.whitelistRepositories, lowerStr w ≠ lowerStr repoPath) →
      (isRepoBlacklisted cfg cache repoPath).fst = true) ∧
    (repoPath ∈ cfg.whitelistRepositories →
      (isRepoBlacklisted cfg cache repoPath).fst = false) := by
  constructor
  · intro hen hne hrep hwl
    have h0 : (repoPath == "" || !cfg.enabled) = false := by simp [hen, hne]
    have hw : cfg.whitelistRepositories.any (fun r => lowerStr r == lowerStr repoPath) = false := by
      simp only [List.any_eq_false, beq_iff_eq]
      exact hwl
    have hr : cfg.repositories.any (fun r => lowerStr r == lowerStr repoPath) = true := by
      simp only [List.any_eq_true, beq_iff_eq]
      exact hrep
    simp [isRepoBlacklisted, h0, hmiss, hw, hr]
  · intro hwmem
    by_cases h0 : (repoPath == "" || !cfg.enabled) = true
    · simp [isRepoBlacklisted, h0]
    · have h0' : (repoPath == "" || !cfg.enabled) = false := by
        simpa using h0
      have hw : cfg.whitelistRepositories.any (fun r => lowerStr r == lowerStr repoPath) = true := by
        simp only [List.any_eq_true, beq_iff_eq]
        exact ⟨repoPath, hwmem, rfl⟩
      simp [isRepoBlacklisted, h0', hmiss, hw]

/-- A concrete policy drawn from `config/blacklist.js`, for the witnesses. -/
def samplePolicy : BlacklistConfig :=
  { enabled := true
    repositories := ["Dreamacro/clash", "getlantern/lantern"]
    keywords := ["v2ray", "trojan"]
    whitelistRepositories := ["example/vpn-detection"]
    logBlocked := true
    errorResponse := { statusCode := 451, message := "根据相关法律法规，该内容不予显示" } }

/-- Witness for C1: under `samplePolicy`, the blacklisted repository
`dreamacro/clash` (which matches `Dreamacro/clash` case-insensitively) is
blocked, and the whitelisted `example/vpn-detection` is allowed even
though it contains the keyword `vpn`. -/
theorem C1_witness :
    (isRepoBlacklisted samplePolicy [] "dreamacro/clash").fst = true ∧
    (isRepoBlacklisted samplePolicy [] "example/vpn-detection").fst = false := by
  constructor
  · exact (C1_isRepoBlacklisted_lists samplePolicy [] "dreamacro/clash" rfl).1
      rfl (by decide) (by decide) (by decide)
  · exact (C1_isRepoBlacklisted_lists samplePolicy [] "example/vpn-detection" rfl).2
      (by decide)

/-- A non-default policy standing for the last successfully loaded
configuration, used to exhibit C2's failure. -/
def priorPolicy : BlacklistConfig :=
  { enabled := true
    repositories := ["getlantern/lantern"]
    keywords := ["clash"]
    whitelistRepositories := []
    logBlocked := true
    errorResponse := { statusCode := 451, message := "blocked" } }

/-- **C2, counterexample.**  A reload failure after a successful load does
*not* leave the last good policy in memory: the `catch` branch of
`reloadConfig` installs the hardcoded default, so the in-memory policy
after the failed reload differs from the previously loaded one. -/
theorem C2_cex_reload_failure_drops_prior :
    (reloadConfig none { blacklistConfig := priorPolicy,
                         checkedPathsCache := [("getlantern/lantern", true)],
                         configLastModified := 5 }).fst.blacklistConfig ≠ priorPolicy := by
  decide

/-- **C2, amended.**  On a failed reload the in-memory policy is reset to
the hardcoded safe default (`enabled = false`, empty lists) regardless of
any prior successful load, `false` is returned, and the verdict cache is
left untouched; a successful reload installs the parsed configuration. -/
theorem C2_reload_failure_resets_to_default (st : BlacklistState)
    (cfg : BlacklistConfig) (mtime : Nat) :
    (reloadConfig none st).fst.blacklistConfig = defaultConfig ∧
    (reloadConfig none st).snd = false ∧
    (reloadConfig none st).fst.checkedPathsCache = st.checkedPathsCache ∧
    (reloadConfig (some (cfg, mtime)) st).fst.blacklistConfig = cfg ∧
    (reloadConfig (some (cfg, mtime)) st).fst.checkedPathsCache = [] ∧
    defaultConfig.enabled = false ∧
    defaultConfig.repositories = [] ∧
    defaultConfig.keywords = [] ∧
    defaultConfig.whitelistRepositories = [] :=
  ⟨rfl, rfl, rfl, rfl, rfl, rfl, rfl, rfl, rfl⟩

/-- **C10.** When the policy's `enabled` flag is `false`, nothing is ever
blocked: for every path and every contents of the lists (and any memoized
verdicts), both `isRepoBlacklisted` and `shouldBlockPath` return
`false`. -/
theorem C10_disabled_policy_blocks_nothing (cfg : BlacklistConfig)
    (cache : VerdictCache) (path : String) (hoff : cfg.enabled = false) :
    (isRepoBlacklisted cfg cache path).fst = false ∧
    (shouldBlockPath cfg cache path).fst = false := by
  constructor
  · simp [isRepoBlacklisted, hoff]
  · simp [shouldBlockPath, hoff]

/-- `samplePolicy` with the kill switch off, for C10's witness. -/
def samplePolicyOff : BlacklistConfig :=
  { samplePolicy with enabled := false }

/-- Witness for C10: with `enabled = false`, even a path whose repository
is listed (and memoized as blocked) is not blocked. -/
theorem C10_witness :
    (isRepoBlacklisted samplePolicyOff [("dreamacro/clash", true)] "/Dreamacro/clash").fst = false ∧
    (shouldBlockPath samplePolicyOff [("dreamacro/clash", true)] "/Dreamacro/clash").fst = false :=
  C10_disabled_policy_blocks_nothing samplePolicyOff [("dreamacro/clash", true)]
    "/Dreamacro/clash" rfl

end GithubProxy

namespace GithubProxy

/-- **C3.** With a profile configured with `retries = 3`, a persistently
failing call whose every attempt fails with a retryable error is issued at
most 4 times (exactly 4), and the delay before retry attempt `n` is
`baseDelay * 2 ^ (n - 1)`, so the inter-attempt delays are strictly
increasing (for any positive base delay). -/
theorem C3_retry_bound_and_backoff (d : Nat) (err : Nat → AxiosError)
    (hfail : ∀ n, shouldRetryError (err n) = true) (hd : 0 < d) :
    retryRun 3 d err 0 = (4, [d * 2 ^ 0, d * 2 ^ 1, d * 2 ^ 2]) ∧
    (retryRun 3 d err 0).fst ≤ 4 ∧
    List.Chain' (· < ·) (retryRun 3 d err 0).snd := by
  have key : retryRun 3 d err 0 = (4, [d * 2 ^ 0, d * 2 ^ 1, d * 2 ^ 2]) := by
    simp [retryRun, hfail, retryDelayFor]
  refine ⟨key, by simp [key], ?_⟩
  rw [key]
  simp only [List.chain'_cons, List.chain'_singleton, and_true, pow_succ, pow_zero]
  constructor <;> omega

/-- Witness for C3: the default profile's base delay of 1000ms against an
upstream that resets the connection on every attempt. -/
theorem C3_witness :
    retryRun 3 1000 (fun _ => ⟨some "ECONNRESET", none⟩) 0
      = (4, [1000 * 2 ^ 0, 1000 * 2 ^ 1, 1000 * 2 ^ 2]) ∧
    (retryRun 3 1000 (fun _ => ⟨some "ECONNRESET", none⟩) 0).fst ≤ 4 ∧
    List.Chain' (· < ·) (retryRun 3 1000 (fun _ => ⟨some "ECONNRESET", none⟩) 0).snd :=
  C3_retry_bound_and_backoff 1000 (fun _ => ⟨some "ECONNRESET", none⟩) (fun _ => rfl)
    (by decide)

/-- **C4, counterexample.**  The retry predicate never inspects the HTTP
method: a POST call whose connection is reset *is* re-issued (budget
permitting), contradicting the claim that POST/PUT/PATCH are never
retried. -/
theorem C4_cex_post_with_reset_is_retried :
    willRetry { method := "POST", retry := 3, currentRetryCount := 0 }
      { code := some "ECONNRESET", responseStatus := none } = true := by
  decide

/-- **C4, amended.**  A call that received a 4xx response is never retried
unless its error also carries a network-error code; and the retry decision
is independent of the HTTP method, so POST/PUT/PATCH calls failing with
retryable (network or 5xx) errors are retried exactly like GETs. -/
theorem C4_no_4xx_retry_and_method_blind :
    (∀ (cfg : RequestConfig) (e : AxiosError) (s : Nat),
        e.responseStatus = some s → 400 ≤ s → s < 500 → isNetworkError e = false →
        willRetry cfg e = false) ∧
    (∀ (m₁ m₂ : String) (r c : Nat) (e : AxiosError),
        willRetry { method := m₁, retry := r, currentRetryCount := c } e
          = willRetry { method := m₂, retry := r, currentRetryCount := c } e) := by
  constructor
  · intro cfg e s hs h4 h5 hn
    have hsr : shouldRetryError e = false := by
      simp only [shouldRetryError, hn, hs, Bool.false_or]
      simp only [decide_eq_false_iff_not]
      omega
    simp [willRetry, hsr]
  · intro m₁ m₂ r c e
    rfl

/-- **C5.** With caching enabled, after `set(k, v, ttl)` (a cacheable
value, positive ttl) a `get(k)` whose elapsed time does not exceed `ttl`
returns `v` and leaves the store alone, and a `get(k)` after `ttl` has
elapsed is a miss that removes the expired entry at that read. -/
theorem C5_cache_set_get_ttl (store : CacheMap) (k : String) (v : CacheData)
    (ttl t0 t1 : Nat) (hstream : v.streamLike = false) (hpos : 0 < ttl) :
    (t1 - t0 ≤ ttl →
      CacheManager.get true (CacheManager.set true store t0 k v ttl) t1 k
        = (some v, CacheManager.set true store t0 k v ttl)) ∧
    (ttl < t1 - t0 →
      CacheManager.get true (CacheManager.set true store t0 k v ttl) t1 k
        = (none, assocDelete (CacheManager.set true store t0 k v ttl) k)) := by
  have hz : (ttl == 0) = false := by
    simp only [beq_eq_false_iff_ne, ne_eq]
    omega
  have hset : CacheManager.set true store t0 k v ttl
      = assocSet store k { data := v, timestamp := t0, maxAge := ttl } := by
    simp [CacheManager.set, hstream, hz]
  constructor
  · intro hle
    rw [hset]
    simp only [CacheManager.get, Bool.not_true, assocGet_assocSet_self]
    rw [if_neg (show ¬(t1 - t0 > ttl) by omega)]
    simp
  · intro hlt
    rw [hset]
    simp only [CacheManager.get, Bool.not_true, assocGet_assocSet_self]
    rw [if_pos (show t1 - t0 > ttl by omega)]
    simp

/-- Witness for C5: a 50ms ttl entry read back 40ms later (hit) and 51ms
later (miss, entry removed). -/
theorem C5_witness :
    (CacheManager.get true (CacheManager.set true [] 100 "raw:f" ⟨"hi", false⟩ 50) 140 "raw:f"
      = (some ⟨"hi", false⟩, CacheManager.set true [] 100 "raw:f" ⟨"hi", false⟩ 50)) ∧
    (CacheManager.get true (CacheManager.set true [] 100 "raw:f" ⟨"hi", false⟩ 50) 151 "raw:f"
      = (none, assocDelete (CacheManager.set true [] 100 "raw:f" ⟨"hi", false⟩ 50) "raw:f")) :=
  ⟨(C5_cache_set_get_ttl [] "raw:f" ⟨"hi", false⟩ 50 100 140 rfl (by decide)).1 (by decide),
   (C5_cache_set_get_ttl [] "raw:f" ⟨"hi", false⟩ 50 100 151 rfl (by decide)).2 (by decide)⟩

/-- **C9, counterexample.**  "The cache state is unchanged" fails as
stated: when the key holds an already-expired entry, the initial read
inside `getOrSetCache` deletes it lazily, so after a failed fetch the
store differs from the one before the call. -/
theorem C9_cex_failed_fetch_store_differs :
    (getOrSetCache true [("k", ⟨⟨"d", false⟩, 0, 5⟩)] 10 "k" 100 (Except.error "boom")).snd
      ≠ [("k", ⟨⟨"d", false⟩, 0, 5⟩)] := by
  decide

/-- **C9, amended.**  If the initial read misses and the fetch fails, the
error is passed through, the store is exactly as the initial read left it
(which can only have lazily deleted an already-expired entry under `k`),
and a lookup of `k` at any later time is still a miss — so nothing was
stored under `k`.  (`hnd` states the JS `Map` invariant that keys are
unique.) -/
theorem C9_failed_fetch_stores_nothing (enabled : Bool) (store : CacheMap) (now : Nat)
    (k : String) (maxAge : Nat) (e : String)
    (hnd : (store.map Prod.fst).Nodup)
    (hmiss : (CacheManager.get enabled store now k).fst = none) :
    (getOrSetCache enabled store now k maxAge (Except.error e)).fst = Except.error e ∧
    (getOrSetCache enabled store now k maxAge (Except.error e)).snd
      = (CacheManager.get enabled store now k).snd ∧
    (∀ t, (CacheManager.get enabled
        (getOrSetCache enabled store now k maxAge (Except.error e)).snd t k).fst = none) := by
  cases enabled with
  | false =>
    have hg : getOrSetCache false store now k maxAge (Except.error e)
        = (Except.error e, store) := by
      simp [getOrSetCache, CacheManager.get]
    exact ⟨by simp [hg], by simp [hg, CacheManager.get],
      fun t => by simp [hg, CacheManager.get]⟩
  | true =>
    cases hag : assocGet store k with
    | none =>
      have hget : CacheManager.get true store now k = (none, store) := by
        simp [CacheManager.get, hag]
      have hg : getOrSetCache true store now k maxAge (Except.error e)
          = (Except.error e, store) := by
        simp [getOrSetCache, hget]
      exact ⟨by simp [hg], by simp [hg, hget],
        fun t => by simp [hg, CacheManager.get, hag]⟩
    | some item =>
      by_cases hexp : now - item.timestamp > item.maxAge
      · have hget : CacheManager.get true store now k = (none, assocDelete store k) := by
          simp [CacheManager.get, hag, hexp]
        have hg : getOrSetCache true store now k maxAge (Except.error e)
            = (Except.error e, assocDelete store k) := by
          simp [getOrSetCache, hget]
        refine ⟨by simp [hg], by simp [hg, hget], fun t => ?_⟩
        simp [hg, CacheManager.get, assocGet_assocDelete_self store k hnd]
      · have hget : CacheManager.get true store now k = (some item.data, store) := by
          simp [CacheManager.get, hag, hexp]
        rw [hget] at hmiss
        simp at hmiss

/-- Witness for C9: an empty store, a failing fetch — the error is passed
through and the key stays a miss forever. -/
theorem C9_witness :
    (getOrSetCache true [] 10 "k" 100 (Except.error "boom")).fst = Except.error "boom" ∧
    (getOrSetCache true [] 10 "k" 100 (Except.error "boom")).snd
      = (CacheManager.get true [] 10 "k").snd ∧
    (∀ t, (CacheManager.get true
        (getOrSetCache true [] 10 "k" 100 (Except.error "boom")).snd t "k").fst = none) :=
  C9_failed_fetch_stores_nothing true [] 10 "k" 100 "boom" (by decide) (by decide)

end GithubProxy

namespace GithubProxy

/-! ### Lemmas about the host-pattern replacement scan -/

/-- A one-step unfolding of the scanner at `skip = 0`. -/
theorem replaceSchemeGo_cons (host repl : List Char) (c : Char) (rest : List Char) :
    replaceSchemeGo host repl 0 (c :: rest) =
      if listHasPrefixL ("https://".data ++ host) (c :: rest) then
        repl ++ replaceSchemeGo host repl (7 + host.length) rest
      else if listHasPrefixL ("http://".data ++ host) (c :: rest) then
        repl ++ replaceSchemeGo host repl (6 + host.length) rest
      else c :: replaceSchemeGo host repl 0 rest := rfl

/-- Skipping exactly the characters of `a` resumes the scan at `t`. -/
theorem replaceSchemeGo_skip (host repl : List Char) (a t : List Char) :
    replaceSchemeGo host repl a.length (a ++ t) = replaceSchemeGo host repl 0 t := by
  induction a with
  | nil => rfl
  | cons c as ih => simpa [replaceSchemeGo] using ih

/-- A scan standing at a `https://host` occurrence emits the replacement
and resumes after it. -/
theorem replaceSchemeGo_match_head (host repl t : List Char) :
    replaceSchemeGo host repl 0 (("https://".data ++ host) ++ t)
      = repl ++ replaceSchemeGo host repl 0 t := by
  have hcons : ("https://".data ++ host) ++ t = 'h' :: (("ttps://".data ++ host) ++ t) := rfl
  rw [hcons, replaceSchemeGo_cons]
  have hpref : listHasPrefixL ("https://".data ++ host)
      ('h' :: (("ttps://".data ++ host) ++ t)) = true := by
    have e : ('h' :: (("ttps://".data ++ host) ++ t)) = ("https://".data ++ host) ++ t := rfl
    rw [e]
    exact listHasPrefixL_append_self _ _
  rw [if_pos hpref]
  have hlen : ("ttps://".data ++ host).length = 7 + host.length := by
    simp
    omega
  rw [← hlen, replaceSchemeGo_skip]

/-- A scan over text free of both host patterns is the identity. -/
theorem replaceSchemeGo_no_match (host repl : List Char) (s : List Char)
    (h1 : hasSubL s ("https://".data ++ host) = false)
    (h2 : hasSubL s ("http://".data ++ host) = false) :
    replaceSchemeGo host repl 0 s = s := by
  induction s with
  | nil => rfl
  | cons c rest ih =>
    simp only [hasSubL, Bool.or_eq_false_iff] at h1 h2
    rw [replaceSchemeGo_cons]
    simp only [h1.1, h2.1, Bool.false_eq_true, if_false]
    rw [ih h1.2 h2.2]

/-- **C6.** The HTML rewriter maps an `href` to the main site host to the
site-relative path and an `href` to the raw-content host to the
`/raw/`-prefixed path: for every path `x` whose text does not itself
contain another upstream host pattern, `processResourceUrl` (the function
applied to every `src`/`href`/`data-url`/`data-src`/`content` attribute
value and `url(...)` reference) maps `https://github.com/x` to `/x` and
`https://raw.githubusercontent.com/x` to `/raw/x`; and the end-to-end
rewrite `transformHtmlContent` performs exactly these rewrites on concrete
HTML bodies. -/
theorem C6_rewriteHTML_main_and_raw (x : String)
    (hcdn1 : matchesScheme ("https://github.com/" ++ x) "cdn." = false)
    (hass1 : matchesScheme ("https://github.com/" ++ x) "github.githubassets.com" = false)
    (hraw1 : matchesScheme ("https://github.com/" ++ x) "raw.githubusercontent.com" = false)
    (hapi1 : matchesScheme ("https://github.com/" ++ x) "api.github.com" = false)
    (hx1 : containsSub x "https://github.com" = false)
    (hx2 : containsSub x "http://github.com" = false)
    (hcdn2 : matchesScheme ("https://raw.githubusercontent.com/" ++ x) "cdn." = false)
    (hass2 : matchesScheme ("https://raw.githubusercontent.com/" ++ x) "github.githubassets.com" = false)
    (hx3 : containsSub x "https://raw.githubusercontent.com" = false)
    (hx4 : containsSub x "http://raw.githubusercontent.com" = false) :
    processResourceUrl ("https://github.com/" ++ x) = "/" ++ x ∧
    processResourceUrl ("https://raw.githubusercontent.com/" ++ x) = "/raw/" ++ x ∧
    transformHtmlContent ⟨0, 0⟩ "proxy.example"
        "<a href=\"https://github.com/octocat/Hello-World\">x</a>"
      = "<a href=\"/octocat/Hello-World\">x</a>" ∧
    transformHtmlContent ⟨0, 0⟩ "proxy.example"
        "<a href=\"https://raw.githubusercontent.com/octocat/Hello-World/main/README.md\">x</a>"
      = "<a href=\"/raw/octocat/Hello-World/main/README.md\">x</a>" := by
  refine ⟨?_, ?_, by decide, by decide⟩
  · have hslash : (strStartsWith ("https://github.com/" ++ x) "/" &&
        !strStartsWith ("https://github.com/" ++ x) "//") = false := rfl
    have hgh : matchesScheme ("https://github.com/" ++ x) "github.com" = true := rfl
    simp only [processResourceUrl, hslash, hgh, hcdn1, hass1, hraw1, hapi1,
      Bool.false_eq_true, if_false, if_true]
    have hdata : replaceSchemeGo "github.com".data "".data 0
        ("https://github.com/" ++ x).data = ("/" ++ x).data := by
      have e : ("https://github.com/" ++ x).data
          = ("https://".data ++ "github.com".data) ++ ('/' :: x.data) := rfl
      rw [e, replaceSchemeGo_match_head, replaceSchemeGo_cons]
      have c1 : listHasPrefixL ("https://".data ++ "github.com".data) ('/' :: x.data)
          = false := rfl
      have c2 : listHasPrefixL ("http://".data ++ "github.com".data) ('/' :: x.data)
          = false := rfl
      simp only [c1, c2, Bool.false_eq_true, if_false]
      rw [replaceSchemeGo_no_match _ _ _ hx1 hx2]
      rfl
    exact congrArg String.mk hdata
  · have hslash : (strStartsWith ("https://raw.githubusercontent.com/" ++ x) "/" &&
        !strStartsWith ("https://raw.githubusercontent.com/" ++ x) "//") = false := rfl
    have hraw : matchesScheme ("https://raw.githubusercontent.com/" ++ x)
        "raw.githubusercontent.com" = true := rfl
    simp only [processResourceUrl, hslash, hraw, hcdn2, hass2,
      Bool.false_eq_true, if_false, if_true]
    have hdata : replaceSchemeGo "raw.githubusercontent.com".data "/raw".data 0
        ("https://raw.githubusercontent.com/" ++ x).data = ("/raw/" ++ x).data := by
      have e : ("https://raw.githubusercontent.com/" ++ x).data
          = ("https://".data ++ "raw.githubusercontent.com".data) ++ ('/' :: x.data) := rfl
      rw [e, replaceSchemeGo_match_head, replaceSchemeGo_cons]
      have c1 : listHasPrefixL ("https://".data ++ "raw.githubusercontent.com".data)
          ('/' :: x.data) = false := rfl
      have c2 : listHasPrefixL ("http://".data ++ "raw.githubusercontent.com".data)
          ('/' :: x.data) = false := rfl
      simp only [c1, c2, Bool.false_eq_true, if_false]
      rw [replaceSchemeGo_no_match _ _ _ hx3 hx4]
      rfl
    exact congrArg String.mk hdata

/-- Witness for C6 at the repository path `octocat/Hello-World`. -/
theorem C6_witness :
    processResourceUrl ("https://github.com/" ++ "octocat/Hello-World")
      = "/" ++ "octocat/Hello-World" ∧
    processResourceUrl ("https://raw.githubusercontent.com/" ++ "octocat/Hello-World")
      = "/raw/" ++ "octocat/Hello-World" ∧
    transformHtmlContent ⟨0, 0⟩ "proxy.example"
        "<a href=\"https://github.com/octocat/Hello-World\">x</a>"
      = "<a href=\"/octocat/Hello-World\">x</a>" ∧
    transformHtmlContent ⟨0, 0⟩ "proxy.example"
        "<a href=\"https://raw.githubusercontent.com/octocat/Hello-World/main/README.md\">x</a>"
      = "<a href=\"/raw/octocat/Hello-World/main/README.md\">x</a>" :=
  C6_rewriteHTML_main_and_raw "octocat/Hello-World" (by decide) (by decide) (by decide)
    (by decide) (by decide) (by decide) (by decide) (by decide) (by decide) (by decide)

end GithubProxy

namespace GithubProxy

/-- Two strings differing at one position differ. -/
theorem stringNe_of_charAt (s t : String) (n : Nat) (c₁ c₂ : Char)
    (h₁ : s.data.get? n = some c₁) (h₂ : t.data.get? n = some c₂) (hc : c₁ ≠ c₂) :
    s ≠ t := by
  intro h
  rw [h] at h₁
  rw [h₁] at h₂
  exact hc (Option.some.inj h₂)

/-- **C7, counterexample.**  Not every cache key has the form
`{routeKind}:{method}:{upstreamURL}`: the raw route's key for a GET
request omits the method component. -/
theorem C7_cex_raw_key_lacks_method :
    rawCacheKey "https://raw.githubusercontent.com/o/r/main/f.txt"
      ≠ "raw:" ++ "GET" ++ ":" ++ "https://raw.githubusercontent.com/o/r/main/f.txt" := by
  decide

/-- **C7, amended.**  The api and github route keys have the form
`{routeKind}:{method}:{upstreamURL}` while the raw, assets and fragment
keys have the form `{routeKind}:{upstreamURL}`; since every key begins
with its route kind followed by `:` and the kinds are pairwise distinct,
keys built by different route kinds never collide, whatever the method
and upstream URL. -/
theorem C7_route_kind_keys_never_collide (m₁ m₂ u₁ u₂ : String) :
    apiCacheKey m₁ u₁ ≠ rawCacheKey u₂ ∧
    apiCacheKey m₁ u₁ ≠ assetsCacheKey u₂ ∧
    apiCacheKey m₁ u₁ ≠ githubCacheKey m₂ u₂ ∧
    apiCacheKey m₁ u₁ ≠ fragmentCacheKey u₂ ∧
    rawCacheKey u₁ ≠ assetsCacheKey u₂ ∧
    rawCacheKey u₁ ≠ githubCacheKey m₂ u₂ ∧
    rawCacheKey u₁ ≠ fragmentCacheKey u₂ ∧
    assetsCacheKey u₁ ≠ githubCacheKey m₂ u₂ ∧
    assetsCacheKey u₁ ≠ fragmentCacheKey u₂ ∧
    githubCacheKey m₁ u₁ ≠ fragmentCacheKey u₂ :=
  ⟨stringNe_of_charAt _ _ 0 'a' 'r' rfl rfl (by decide),
   stringNe_of_charAt _ _ 1 'p' 's' rfl rfl (by decide),
   stringNe_of_charAt _ _ 0 'a' 'g' rfl rfl (by decide),
   stringNe_of_charAt _ _ 0 'a' 'f' rfl rfl (by decide),
   stringNe_of_charAt _ _ 0 'r' 'a' rfl rfl (by decide),
   stringNe_of_charAt _ _ 0 'r' 'g' rfl rfl (by decide),
   stringNe_of_charAt _ _ 0 'r' 'f' rfl rfl (by decide),
   stringNe_of_charAt _ _ 0 'a' 'g' rfl rfl (by decide),
   stringNe_of_charAt _ _ 0 'a' 'f' rfl rfl (by decide),
   stringNe_of_charAt _ _ 0 'g' 'f' rfl rfl (by decide)⟩

/-- **C8.** The content rewriter is deterministic: the HTML body rewrite
and the response-header rewrite depend only on the input body/headers and
the proxy host — for any two ambient environments (`Math.random` pool
index, `Date.now` clock) the outputs are identical, because the source
never consults them in these functions. -/
theorem C8_rewriter_deterministic (e₁ e₂ : Env) (host body : String) (headers : Headers) :
    transformHtmlContent e₁ host body = transformHtmlContent e₂ host body ∧
    processResponseHeaders e₁ host headers = processResponseHeaders e₂ host headers :=
  ⟨rfl, rfl⟩

end GithubProxy
